import Mathlib

/-!
Verification of the incremental reconciliation and export engine of the
DamaDam profile scraper (src/scraper.py).

The Python source is shallowly embedded: dictionaries become association
lists, the spreadsheet becomes a list of rows (lists of cell strings),
and the string primitives used by the code (str.strip, str.upper,
str.lower, the clean_text helper) are reimplemented character by
character so that every definition is executable by the kernel.
-/

namespace Profiles

/-! ### Python string primitives -/

/-- The whitespace characters stripped by Python str.strip(). -/
def isPySpace (c : Char) : Bool :=
  c = ' ' || c = '\t' || c = '\n' || c = '\r' || c = '\x0b' || c = '\x0c'

/-- Strip leading and trailing whitespace from a character list. -/
def pyStripL (l : List Char) : List Char :=
  ((l.dropWhile isPySpace).reverse.dropWhile isPySpace).reverse

/-- Python str.strip(). -/
def pyStrip (s : String) : String :=
  String.mk (pyStripL s.data)

/-- ASCII uppercase of one character, as Python str.upper() on ASCII text. -/
def upChar (c : Char) : Char :=
  if 'a' ≤ c ∧ c ≤ 'z' then Char.ofNat (c.toNat - 32) else c

/-- ASCII lowercase of one character, as Python str.lower() on ASCII text. -/
def lowChar (c : Char) : Char :=
  if 'A' ≤ c ∧ c ≤ 'Z' then Char.ofNat (c.toNat + 32) else c

/-- Python str.upper() (ASCII fragment, which is all the code compares). -/
def pyUpper (s : String) : String :=
  String.mk (s.data.map upChar)

/-- Python str.lower() (ASCII fragment). -/
def pyLower (s : String) : String :=
  String.mk (s.data.map lowChar)

/-- One pass of the replacements in clean_text:
non-breaking space to space, plus sign removed, newline to space. -/
def cleanPass : List Char → List Char
  | [] => []
  | c :: rest =>
    if c = '\xa0' then ' ' :: cleanPass rest
    else if c = '+' then cleanPass rest
    else if c = '\n' then ' ' :: cleanPass rest
    else c :: cleanPass rest

/-- Collapse each maximal whitespace run to a single space,
as re.sub of a whitespace-run pattern with a space. -/
def collapseWS : List Char → List Char
  | [] => []
  | [c] => [if isPySpace c then ' ' else c]
  | c :: d :: rest =>
    if isPySpace c && isPySpace d then collapseWS (d :: rest)
    else (if isPySpace c then ' ' else c) :: collapseWS (d :: rest)

/-- The placeholder values clean_text maps to the empty string. -/
def placeholder_texts : List String :=
  ["not set", "no set", "no city", "none", "n/a", "null"]

/-- clean_text from src/scraper.py: strip, replace non-breaking spaces and
newlines by spaces, drop plus signs, erase placeholder values,
collapse whitespace runs, strip again. -/
def clean_text (s : String) : String :=
  let t := String.mk (cleanPass (pyStripL s.data))
  if placeholder_texts.contains (pyLower t) then ""
  else pyStrip (String.mk (collapseWS t.data))

/-- Python comma-space join of a list of strings. -/
def joinComma : List String → String
  | [] => ""
  | [x] => x
  | x :: y :: rest => x ++ ", " ++ joinComma (y :: rest)

/-! ### Tag index (get_tags_mapping / get_tags_for_nickname) -/

/-- TAGS_CONFIG from src/scraper.py. -/
def TAGS_CONFIG : List (String × String) :=
  [("Following", "🔗 Following"),
   ("Followers", "⭐ Followers"),
   ("Bookmark", "🔖 Bookmark"),
   ("Pending", "⏳ Pending")]

/-- First-match lookup in a string-keyed association list. -/
def lookupStr : List (String × String) → String → Option String
  | [], _ => none
  | (k, v) :: rest, n => if k = n then some v else lookupStr rest n

/-- The icon chosen for a header: TAGS_CONFIG.get with a pin-emoji default. -/
def tagIcon (h : String) : String :=
  match lookupStr TAGS_CONFIG h with
  | some v => v
  | none => "📌 " ++ h

/-- The tags mapping: nickname to its accumulated icon list
(a Python dict of lists). -/
abbrev TagsMap := List (String × List String)

/-- Append an icon to a nickname's list, creating the entry when absent
(Python dict-of-list accumulation). -/
def addTag : TagsMap → String → String → TagsMap
  | [], nick, icon => [(nick, [icon])]
  | (k, v) :: rest, nick, icon =>
    if k = nick then (k, v ++ [icon]) :: rest
    else (k, v) :: addTag rest nick icon

/-- First-match lookup in the tags mapping. -/
def lookupTags : TagsMap → String → Option (List String)
  | [], _ => none
  | (k, v) :: rest, n => if k = n then some v else lookupTags rest n

/-- The stripped cell of a row at column ci, an out-of-range access reading
as empty (the code guards with a length check whose failure also skips). -/
def colCell (row : List String) (ci : Nat) : String :=
  pyStrip (row.getD ci "")

/-- The inner row loop of get_tags_mapping for one header column:
every non-empty stripped cell of the column names a tagged nickname. -/
def addColumn (ci : Nat) (icon : String) : List (List String) → TagsMap → TagsMap
  | [], m => m
  | row :: rest, m =>
    addColumn ci icon rest
      (if colCell row ci = "" then m
       else addTag m (colCell row ci) icon)

/-- The outer column loop of get_tags_mapping: columns with a non-empty
stripped header are processed in header order. -/
def buildTags (body : List (List String)) : List String → Nat → TagsMap → TagsMap
  | [], _, m => m
  | h :: hs, ci, m =>
    buildTags body hs (ci + 1)
      (if pyStrip h = "" then m
       else addColumn ci (tagIcon (pyStrip h)) body m)

/-- get_tags_mapping from src/scraper.py, over the raw Tags-sheet values. -/
def get_tags_mapping (tags_data : List (List String)) : TagsMap :=
  match tags_data with
  | [] => []
  | headers :: body => buildTags body headers 0 []

/-- get_tags_for_nickname from src/scraper.py. -/
def get_tags_for_nickname (nickname : String) (tags_mapping : TagsMap) : String :=
  match lookupTags tags_mapping nickname with
  | none => ""
  | some tags => joinComma tags

/-- Number of cells of column ci of the body whose stripped value is n. -/
def countColN (body : List (List String)) (ci : Nat) (n : String) : Nat :=
  body.countP (fun row => colCell row ci = n)

/-- Whether column ci of the body contains nickname n (stripped). -/
def colHasNick (body : List (List String)) (ci : Nat) (n : String) : Bool :=
  body.any (fun row => colCell row ci = n)

/-- The tag labels the spec promises a nickname: one label per column whose
header is non-empty and whose body contains the nickname, in column order. -/
def specTagList (body : List (List String)) (n : String) :
    List String → Nat → List String
  | [], _ => []
  | h :: hs, ci =>
    (if pyStrip h ≠ "" ∧ colHasNick body ci n then [tagIcon (pyStrip h)] else [])
      ++ specTagList body n hs (ci + 1)

/-- The tag string the spec promises: the per-column labels joined by
comma-space. -/
def specTagString (tags_data : List (List String)) (n : String) : String :=
  match tags_data with
  | [] => ""
  | headers :: body => joinComma (specTagList body n headers 0)

/-! ### Row index (existing_rows in export_to_google_sheets) -/

/-- The row index: nickname to (1-based sheet position, full row values),
a Python dict built by assignment. -/
abbrev RowMap := List (String × Nat × List String)

/-- Python dict assignment: replace the value in place when the key is
present, append the entry otherwise. -/
def insertRow : RowMap → String → Nat × List String → RowMap
  | [], k, v => [(k, v)]
  | (k', v') :: rest, k, v =>
    if k' = k then (k, v) :: rest
    else (k', v') :: insertRow rest k v

/-- First-match lookup in the row index. -/
def lookupRow : RowMap → String → Option (Nat × List String)
  | [], _ => none
  | (k, v) :: rest, n => if k = n then some v else lookupRow rest n

/-- The keys of the row index. -/
def rowKeys (m : RowMap) : List String :=
  m.map (fun e => e.1)

/-- A sheet row enters the index when it has more than two cells and its
nickname cell (index 2) strips to a non-empty value. -/
def qualifies (row : List String) : Bool :=
  decide (2 < row.length) && (pyStrip (row.getD 2 "") != "")

/-- The stripped nickname cell of a sheet row. -/
def rowKey (row : List String) : String :=
  pyStrip (row.getD 2 "")

/-- The body loop building existing_rows: rows are enumerated from sheet
position 2, later assignments overwriting earlier ones. -/
def buildRowsAux : List (List String) → Nat → RowMap → RowMap
  | [], _, m => m
  | row :: rest, i, m =>
    buildRowsAux rest (i + 1)
      (if qualifies row then insertRow m (rowKey row) (i, row) else m)

/-- existing_rows from export_to_google_sheets: empty when the sheet has no
data or an empty first row (the code then writes a header instead),
otherwise built from the body rows starting at position 2. -/
def existing_rows (existing_data : List (List String)) : RowMap :=
  match existing_data with
  | [] => []
  | first :: body => if first.isEmpty then [] else buildRowsAux body 2 []

/-- The last qualifying row of the body carrying nickname n, together with
its 1-based sheet position (positions counted from i). -/
def lastQualAux : List (List String) → Nat → String → Option (Nat × List String)
  | [], _, _ => none
  | row :: rest, i, n =>
    match lastQualAux rest (i + 1) n with
    | some r => some r
    | none => if qualifies row = true ∧ rowKey row = n then some (i, row) else none

/-- The largest-position qualifying row of the sheet for nickname n
(the row the spec promises the index records). -/
def lastQualRow (existing_data : List (List String)) (n : String) :
    Option (Nat × List String) :=
  match existing_data with
  | [] => none
  | first :: body => if first.isEmpty then none else lastQualAux body 2 n

/-! ### Reconciler and batch exporter (export_to_google_sheets) -/

/-- One scraped profile: the fourteen dict fields scrape_profile produces,
every value a string, empty string meaning unobserved. -/
structure Profile where
  date : String
  time : String
  nickname : String
  tags : String
  city : String
  gender : String
  married : String
  age : String
  joined : String
  followers : String
  posts : String
  plink : String
  pimage : String
  intro : String
deriving DecidableEq

/-- The row projected from a profile in the sheet's column order, the
nickname stripped and the intro cleaned, as in export_to_google_sheets. -/
def profileRow (p : Profile) (tagsStr : String) : List String :=
  [p.date, p.time, pyStrip p.nickname, tagsStr, p.city, p.gender, p.married,
   p.age, p.joined, p.followers, p.posts, p.plink, p.pimage, clean_text p.intro]

/-- The column indices compared by the update check: CITY, GENDER, MARRIED,
AGE, JOINED, FOLLOWERS, POSTS, INTRO (key_fields in the source). -/
def key_fields : List Nat := [4, 5, 6, 7, 8, 9, 10, 13]

/-- One field comparison: changed only when the values differ and the new
value is non-empty. -/
def fieldChanged (existing row : List String) (idx : Nat) : Bool :=
  (existing.getD idx "" != row.getD idx "") && (row.getD idx "" != "")

/-- needs_update from export_to_google_sheets: some key field changed, or,
failing that, the TAGS cell (index 3) differs. -/
def needs_update (existing row : List String) : Bool :=
  key_fields.any (fieldChanged existing row) || (existing.getD 3 "" != row.getD 3 "")

/-- The per-record decision of the export loop. -/
inductive ReconAction where
  | skipped
  | create (row : List String)
  | update (rowIndex : Nat) (row : List String)
  | noop
deriving DecidableEq

/-- One iteration of the export loop: skip blank nicknames, resolve tags,
project the row, then decide create / update / no-op against the index. -/
def reconcileProfile (index : RowMap) (tagsMap : TagsMap) (p : Profile) : ReconAction :=
  let nickname := pyStrip p.nickname
  if nickname = "" then .skipped
  else
    let row := profileRow p (get_tags_for_nickname nickname tagsMap)
    match lookupRow index nickname with
    | some (ri, existing) =>
      if needs_update existing row then .update ri row else .noop
    | none => .create row

/-- A write operation issued against the sheet. -/
inductive WriteOp where
  | updateRange (rowIndex : Nat) (values : List String)
  | appendRow (values : List String)
deriving DecidableEq

/-- The writes a decision issues: one full-row range update, one appended
row, or nothing. -/
def writesOf : ReconAction → List WriteOp
  | .skipped => []
  | .noop => []
  | .create r => [.appendRow r]
  | .update i r => [.updateRange i r]

/-- Replace the fourteen-column range of the sheet row at 1-based position
ri (cells beyond column N keep their values). -/
def setSheetRow : List (List String) → Nat → List String → List (List String)
  | [], _, _ => []
  | row :: rest, 0, _ => row :: rest
  | row :: rest, 1, r => (r ++ row.drop 14) :: rest
  | row :: rest, n + 2, r => row :: setSheetRow rest (n + 1) r

/-- Apply one write operation to the sheet. -/
def applySheetWrite (sheet : List (List String)) : WriteOp → List (List String)
  | .appendRow r => sheet ++ [r]
  | .updateRange ri r => setSheetRow sheet ri r

/-- Outcome of processing one record: the decision, how many times its
write was attempted against the store, how many backoff sleeps ran
while handling it, and whether the attempt succeeded. -/
structure RecordOutcome where
  action : ReconAction
  attempts : Nat
  backoffSleeps : Nat
  succeeded : Bool
deriving DecidableEq

/-- One record of the export loop run against a store whose successive
responses to write attempts are given by attemptOk. The source wraps the
single update or append call in one try block with no retry, no sleep,
and a log-only except branch, so exactly the first response is consulted. -/
def processRecord (attemptOk : Nat → Bool) (index : RowMap) (tagsMap : TagsMap)
    (p : Profile) : RecordOutcome :=
  match reconcileProfile index tagsMap p with
  | .skipped => ⟨.skipped, 0, 0, true⟩
  | .noop => ⟨.noop, 0, 0, true⟩
  | .update ri row => ⟨.update ri row, 1, 0, attemptOk 0⟩
  | .create row => ⟨.create row, 1, 0, attemptOk 0⟩

/-- The statistics deltas of the export loop. The source increments
new_count and updated_count only after a successful write and never
touches the error counter inside export_to_google_sheets (a failed
write is only logged). -/
structure ExportCounts where
  new_count : Nat
  updated_count : Nat
  error_count : Nat
deriving DecidableEq

/-- The statistics contribution of one processed record. -/
def countsDelta (o : RecordOutcome) : ExportCounts :=
  match o.action with
  | .create _ => ⟨if o.succeeded then 1 else 0, 0, 0⟩
  | .update _ _ => ⟨0, if o.succeeded then 1 else 0, 0⟩
  | _ => ⟨0, 0, 0⟩

/-- The whole batch loop: records processed in order, record i seeing the
store responses oracles i; the index is the one snapshot taken before
the loop. Failures never stop the loop. -/
def exportBatch (oracles : Nat → Nat → Bool) (index : RowMap) (tagsMap : TagsMap) :
    List Profile → Nat → List RecordOutcome
  | [], _ => []
  | p :: rest, i =>
    processRecord (oracles i) index tagsMap p :: exportBatch oracles index tagsMap rest (i + 1)

/-! ### Target status updates (update_target_status and the export block) -/

/-- The cell writes of one target-status update, in issue order:
(row, column, value). Column B always receives the status; column C
(LAST_SCRAPED) is written, with the current time, only when the status
uppercases to COMPLETED; column D (NOTES) only when notes is non-empty. -/
def update_target_status (row_index : Nat) (status notes now : String) :
    List (Nat × Nat × String) :=
  [(row_index, 2, status)]
    ++ (if pyUpper status = "COMPLETED" then [(row_index, 3, now)] else [])
    ++ (if notes ≠ "" then [(row_index, 4, notes)] else [])

/-! ### Rate limiter (spec-modelled) -/

/-- Modelled from the spec: the rate limiter component (the RateWindow state
and its record_and_check operation) is part of this repository but not of
the source file under src/. Following the spec's words: prune entries
older than 60 seconds, append the current time, and if the window size
reaches the quota, block for the pause duration and clear the window.
rcAppend is the prune-and-append step; time is in whole seconds. -/
def rcAppend (window : List Nat) (t : Nat) : List Nat :=
  window.filter (fun s => t - s < 60) ++ [t]

/-- Modelled from the spec: record_and_check of the rate limiter, absent
from src/. Returns the window after the call and whether a pause was
forced (pause and clear exactly when the appended window reaches quota). -/
def record_and_check (quota : Nat) (window : List Nat) (t : Nat) : List Nat × Bool :=
  if quota ≤ (rcAppend window t).length then ([], true)
  else (rcAppend window t, false)

/-- The window held before the m-th write operation when the operations are
issued at times ts 0, ts 1, ..., every one passing through
record_and_check. -/
def rcWindow (quota : Nat) (ts : Nat → Nat) : Nat → List Nat
  | 0 => []
  | m + 1 => (record_and_check quota (rcWindow quota ts m) (ts m)).1

/-- Whether the m-th call to record_and_check forces a pause. The call runs
before the m-th write is issued. -/
def rcPaused (quota : Nat) (ts : Nat → Nat) (m : Nat) : Bool :=
  (record_and_check quota (rcWindow quota ts m) (ts m)).2

/-! ### Relative-time normalizer (spec-modelled) -/

/-- Split a character list into its maximal whitespace-free words. -/
def wordsAux : List Char → List Char → List (List Char)
  | [], cur => if cur.isEmpty then [] else [cur.reverse]
  | c :: rest, cur =>
    if isPySpace c then
      if cur.isEmpty then wordsAux rest [] else cur.reverse :: wordsAux rest []
    else wordsAux rest (c :: cur)

/-- Parse a decimal digit. -/
def digitVal (c : Char) : Option Nat :=
  if '0' ≤ c && c ≤ '9' then some (c.toNat - 48) else none

/-- Parse a non-empty all-digit word as a number. -/
def digitsToNatAux : List Char → Nat → Option Nat
  | [], acc => some acc
  | c :: rest, acc =>
    match digitVal c with
    | some d => digitsToNatAux rest (acc * 10 + d)
    | none => none

/-- Parse a non-empty decimal numeral. -/
def parseNatL (l : List Char) : Option Nat :=
  match l with
  | [] => none
  | _ => digitsToNatAux l 0

/-- Modelled from the spec: the duration in seconds of one time unit of the
relative phrases, month approximated as 30 days and year as 365 days. -/
def unitSeconds (u : String) : Option Nat :=
  if u = "second" then some 1
  else if u = "minute" then some 60
  else if u = "hour" then some 3600
  else if u = "day" then some 86400
  else if u = "week" then some 604800
  else if u = "month" then some (30 * 86400)
  else if u = "year" then some (365 * 86400)
  else none

/-- Drop an optional plural s from the unit word. -/
def stripPlural (u : String) : String :=
  match u.data.getLast? with
  | some 's' => String.mk u.data.dropLast
  | _ => u

/-- Modelled from the spec: the pattern match of the relative-time
normalizer, absent from the source file under src/. A phrase matches
when it is exactly an integer, a known unit (optionally plural) and the
word ago; the result is the offset in seconds. -/
def parseAgo (text : String) : Option Nat :=
  match wordsAux text.data [] with
  | [n, u, a] =>
    if String.mk a = "ago" then
      match parseNatL n, unitSeconds (stripPlural (String.mk u)) with
      | some k, some s => some (k * s)
      | _, _ => none
    else none
  | _ => none

/-- Gregorian civil date (year, month, day) of a day count from the 1970
epoch. -/
def civilFromDays (z : Nat) : Nat × Nat × Nat :=
  let z' := z + 719468
  let era := z' / 146097
  let doe := z' % 146097
  let yoe := (doe - doe / 1460 + doe / 36524 - doe / 146096) / 365
  let y := yoe + era * 400
  let doy := doe - (365 * yoe + yoe / 4 - yoe / 100)
  let mp := (5 * doy + 2) / 153
  let d := doy - (153 * mp + 2) / 5 + 1
  let m := if mp < 10 then mp + 3 else mp - 9
  (if m ≤ 2 then y + 1 else y, m, d)

/-- Three-letter month names. -/
def monthName (m : Nat) : String :=
  ["Jan", "Feb", "Mar", "Apr", "May", "Jun",
   "Jul", "Aug", "Sep", "Oct", "Nov", "Dec"].getD (m - 1) ""

/-- Two-digit zero-padded numeral. -/
def twoDigits (n : Nat) : String :=
  if n < 10 then "0" ++ toString n else toString n

/-- The date-only output format of the normalizer (epoch seconds in,
dd-Mmm-yy out). -/
def formatDateOnly (epoch : Nat) : String :=
  let c := civilFromDays (epoch / 86400)
  twoDigits c.2.2 ++ "-" ++ monthName c.2.1 ++ "-" ++ twoDigits (c.1 % 100)

/-- The date-plus-time output format of the normalizer
(dd-Mmm-yy hh:mm AM or PM). -/
def formatDateTime (epoch : Nat) : String :=
  let secs := epoch % 86400
  let h24 := secs / 3600
  let mins := secs % 3600 / 60
  let h12 := if h24 % 12 = 0 then 12 else h24 % 12
  let ap := if h24 < 12 then "AM" else "PM"
  formatDateOnly epoch ++ " " ++ twoDigits h12 ++ ":" ++ twoDigits mins ++ " " ++ ap

/-- Modelled from the spec: the date-only entry point of the relative-time
normalizer, absent from src/. A matching phrase becomes now minus the
offset in the date-only format; anything else is returned unchanged. -/
def convert_relative_date (now : Nat) (text : String) : String :=
  match parseAgo text with
  | some delta => formatDateOnly (now - delta)
  | none => text

/-- Modelled from the spec: the post-timestamp entry point of the
relative-time normalizer, absent from src/. A matching phrase becomes
now minus the offset in the date-plus-time format; anything else becomes
the literal marker string. -/
def parse_post_time (now : Nat) (text : String) : String :=
  match parseAgo text with
  | some delta => formatDateTime (now - delta)
  | none => "N/A"

/-! ### Concrete instances used by counterexamples and witnesses -/

/-- The fixed header row the exporter writes. -/
def sheetHeaders : List String :=
  ["DATE", "TIME", "NICKNAME", "TAGS", "CITY", "GENDER", "MARRIED", "AGE",
   "JOINED", "FOLLOWERS", "POSTS", "PLINK", "PIMAGE", "INTRO"]

/-- Lookup in the tags mapping defaulted to the empty tag list. -/
def lookupTagsD (m : TagsMap) (n : String) : List String :=
  (lookupTags m n).getD []

/-- A store holding alice with a non-empty CITY and an old INTRO. -/
def c1Sheet : List (List String) :=
  [sheetHeaders,
   ["01-Jan", "09:00", "alice", "", "Lahore", "", "", "", "", "", "", "", "", "old"]]

/-- An incoming record for alice with an empty CITY and a changed INTRO. -/
def c1Profile : Profile :=
  ⟨"02-Jan", "10:00", "alice", "", "", "", "", "", "", "", "", "", "", "new"⟩

/-- The store row of c1Sheet after the record is reconciled and its writes
applied. -/
def c1SheetAfter : List (List String) :=
  (writesOf (reconcileProfile (existing_rows c1Sheet) [] c1Profile)).foldl
    applySheetWrite c1Sheet

/-- A store holding bob whose PIMAGE cell is img1, all other compared
fields empty. -/
def c2Sheet : List (List String) :=
  [sheetHeaders,
   ["d", "t", "bob", "", "", "", "", "", "", "", "", "", "img1", ""]]

/-- An incoming record for bob differing only in PIMAGE. -/
def c2Profile : Profile :=
  ⟨"d2", "t2", "bob", "", "", "", "", "", "", "", "", "", "img2", ""⟩

/-- A store holding carol with the same compared field values as
c3Profile. -/
def c3Sheet : List (List String) :=
  [sheetHeaders,
   ["d", "t", "carol", "", "Karachi", "F", "", "", "", "", "", "", "", ""]]

/-- An incoming record for carol whose compared fields match the store. -/
def c3Profile : Profile :=
  ⟨"d2", "t2", "carol", "", "Karachi", "F", "", "", "", "", "", "", "", ""⟩

/-- A brand-new record, so that its export issues a write. -/
def c5Profile : Profile :=
  ⟨"d", "t", "erin", "", "", "", "", "", "", "", "", "", "", ""⟩

/-- A store behavior that throttles the first write attempt and would let a
retry succeed. -/
def c5Oracle : Nat → Bool :=
  fun a => decide (a ≠ 0)

/-- A record whose identifier is whitespace only. -/
def c9Profile : Profile :=
  ⟨"d", "t", "   ", "", "", "", "", "", "", "", "", "", "", ""⟩

/-- The stored row of c1Sheet (position 2). -/
def c1Ex : List String :=
  ["01-Jan", "09:00", "alice", "", "Lahore", "", "", "", "", "", "", "", "", "old"]

/-- An incoming record for alice whose compared fields are each empty or
equal to the stored values of c1Ex. -/
def c1ProfileB : Profile :=
  ⟨"02-Jan", "10:00", "alice", "", "", "", "", "", "", "", "", "", "", "old"⟩

/-- The stored row of c2Sheet (position 2). -/
def c2Ex : List String :=
  ["d", "t", "bob", "", "", "", "", "", "", "", "", "", "img1", ""]

/-- The stored row of c3Sheet (position 2). -/
def c3Ex : List String :=
  ["d", "t", "carol", "", "Karachi", "F", "", "", "", "", "", "", "", ""]

/-! ### Bridge lemmas for the reconciler -/

/-- The Boolean update check as a proposition: some key field has a
differing, non-empty new value, or the TAGS cell differs. -/
theorem needs_update_iff (existing row : List String) :
    needs_update existing row = true ↔
      (∃ i ∈ key_fields,
          existing.getD i "" ≠ row.getD i "" ∧ row.getD i "" ≠ "")
        ∨ existing.getD 3 "" ≠ row.getD 3 "" := by
  simp [needs_update, fieldChanged, List.any_eq_true, bne_iff_ne]

/-- When no key field changed and the TAGS cell matches, the update check
is negative. -/
theorem needs_update_eq_false (existing row : List String)
    (hkey : ∀ i ∈ key_fields, existing.getD i "" = row.getD i "")
    (htag : existing.getD 3 "" = row.getD 3 "") :
    needs_update existing row = false := by
  cases hb : needs_update existing row with
  | false => rfl
  | true =>
    rcases (needs_update_iff existing row).mp hb with ⟨i, hi, hne, _⟩ | hne
    · exact absurd (hkey i hi) hne
    · exact absurd htag hne

/-- A record whose identifier is present in the index reduces to the update
check between the stored row and the projected row. -/
theorem reconcile_present (index : RowMap) (tagsMap : TagsMap) (p : Profile)
    (ri : Nat) (ex : List String)
    (hnick : pyStrip p.nickname ≠ "")
    (hlk : lookupRow index (pyStrip p.nickname) = some (ri, ex)) :
    reconcileProfile index tagsMap p =
      if needs_update ex (profileRow p (get_tags_for_nickname (pyStrip p.nickname) tagsMap))
      then .update ri (profileRow p (get_tags_for_nickname (pyStrip p.nickname) tagsMap))
      else .noop := by
  simp [reconcileProfile, hnick, hlk]

/-! ### Claim theorems -/

/-- C1, counterexample: the claim says an empty incoming field never
overwrites a non-empty stored value. On c1Sheet, alice's stored CITY is
Lahore, the incoming CITY is empty, yet the changed INTRO triggers a
full-row UPDATE and the CITY cell of the store becomes empty. -/
theorem c1_counterexample :
    reconcileProfile (existing_rows c1Sheet) [] c1Profile
        = .update 2 (profileRow c1Profile "")
    ∧ (profileRow c1Profile "").getD 4 "" = ""
    ∧ (c1Sheet.getD 1 []).getD 4 "" = "Lahore"
    ∧ (c1SheetAfter.getD 1 []).getD 4 "" = "" := by
  decide

/-- C1, amended: an empty incoming field never by itself triggers an
UPDATE — when every key field's new value is empty or equal to the
stored one and the TAGS cell matches, the decision is NO-OP and no write
is issued; and a non-empty key-field value differing from the stored one
always triggers UPDATE. (When an UPDATE does fire, the whole projected
row is written, so empty fields then do overwrite, as the
counterexample shows.) -/
theorem c1_monotonic_fill_amended (index : RowMap) (tagsMap : TagsMap)
    (p : Profile) (ri : Nat) (ex : List String)
    (hnick : pyStrip p.nickname ≠ "")
    (hlk : lookupRow index (pyStrip p.nickname) = some (ri, ex)) :
    let row := profileRow p (get_tags_for_nickname (pyStrip p.nickname) tagsMap)
    ((∀ i ∈ key_fields, row.getD i "" = "" ∨ row.getD i "" = ex.getD i "") →
        ex.getD 3 "" = row.getD 3 "" →
        reconcileProfile index tagsMap p = .noop
          ∧ writesOf (reconcileProfile index tagsMap p) = [])
    ∧ (∀ i ∈ key_fields, row.getD i "" ≠ "" → row.getD i "" ≠ ex.getD i "" →
        reconcileProfile index tagsMap p = .update ri row) := by
  intro row
  have hb := reconcile_present index tagsMap p ri ex hnick hlk
  constructor
  · intro hkey htag
    have hfalse : needs_update ex row = false := by
      cases hb2 : needs_update ex row with
      | false => rfl
      | true =>
        rcases (needs_update_iff ex row).mp hb2 with ⟨i, hi, hne, hne2⟩ | hne
        · rcases hkey i hi with h | h
          · exact absurd h hne2
          · exact absurd h.symm hne
        · exact absurd htag hne
    rw [hb, hfalse]
    exact ⟨rfl, rfl⟩
  · intro i hi hne hdiff
    have htrue : needs_update ex row = true := by
      rw [needs_update_iff]
      exact Or.inl ⟨i, hi, fun he => hdiff he.symm, hne⟩
    rw [hb, htrue]
    rfl

/-- C2, counterexample: the claim's significance set is every column except
the date and time ones, hence contains PIMAGE (index 12). On c2Sheet the
incoming PIMAGE is non-empty and differs from the stored one and no
other compared value differs, so the claim demands UPDATE, but the
decision is NO-OP (the code compares only columns 4-10 and 13). -/
theorem c2_counterexample :
    (profileRow c2Profile "").getD 12 "" ≠ ""
    ∧ (profileRow c2Profile "").getD 12 "" ≠ (c2Sheet.getD 1 []).getD 12 ""
    ∧ reconcileProfile (existing_rows c2Sheet) [] c2Profile = .noop := by
  decide

/-- C2, amended: for a record present in the index the decision is UPDATE
iff some field of the set CITY, GENDER, MARRIED, AGE, JOINED, FOLLOWERS,
POSTS, INTRO (indices 4-10 and 13 — the set excludes NICKNAME, TAGS,
PLINK and PIMAGE as well as the date and time columns) has a non-empty
new value differing from the stored one, or the TAGS cell differs;
otherwise the decision is NO-OP and no write is issued. -/
theorem c2_decision_rule_amended (index : RowMap) (tagsMap : TagsMap)
    (p : Profile) (ri : Nat) (ex : List String)
    (hnick : pyStrip p.nickname ≠ "")
    (hlk : lookupRow index (pyStrip p.nickname) = some (ri, ex)) :
    let row := profileRow p (get_tags_for_nickname (pyStrip p.nickname) tagsMap)
    (reconcileProfile index tagsMap p = .update ri row ↔
        ((∃ i ∈ key_fields,
            ex.getD i "" ≠ row.getD i "" ∧ row.getD i "" ≠ "")
          ∨ ex.getD 3 "" ≠ row.getD 3 ""))
    ∧ (reconcileProfile index tagsMap p = .noop ↔
        ¬ ((∃ i ∈ key_fields,
              ex.getD i "" ≠ row.getD i "" ∧ row.getD i "" ≠ "")
            ∨ ex.getD 3 "" ≠ row.getD 3 ""))
    ∧ (reconcileProfile index tagsMap p = .noop →
        writesOf (reconcileProfile index tagsMap p) = []) := by
  intro row
  have hb := reconcile_present index tagsMap p ri ex hnick hlk
  by_cases hu : needs_update ex row = true
  · rw [hb, if_pos hu]
    refine ⟨⟨fun _ => (needs_update_iff ex row).mp hu, fun _ => rfl⟩, ?_, ?_⟩
    · constructor
      · intro h; exact absurd h (by simp)
      · intro h; exact absurd ((needs_update_iff ex row).mp hu) h
    · intro h; exact absurd h (by simp)
  · have hu' : needs_update ex row = false := by
      cases hb2 : needs_update ex row with
      | false => rfl
      | true => exact absurd hb2 hu
    rw [hb, if_neg (by rw [hu']; simp)]
    refine ⟨?_, ?_, fun _ => rfl⟩
    · constructor
      · intro h; exact absurd h (by simp)
      · intro h
        exact absurd ((needs_update_iff ex row).mpr h) (by rw [hu']; simp)
    · constructor
      · intro _ h
        exact absurd ((needs_update_iff ex row).mpr h) (by rw [hu']; simp)
      · intro _; rfl

/-- C3: reconciling a record against a store that already holds a row with
the same identifier and identical compared values (key fields and tags)
yields NO-OP, issues no write, and — the store being unchanged — yields
NO-OP with no write again on the second pass. -/
theorem c3_idempotence (sheet : List (List String)) (tagsMap : TagsMap)
    (p : Profile) (ri : Nat) (ex : List String)
    (hnick : pyStrip p.nickname ≠ "")
    (hlk : lookupRow (existing_rows sheet) (pyStrip p.nickname) = some (ri, ex))
    (hkey : ∀ i ∈ key_fields,
        ex.getD i ""
          = (profileRow p (get_tags_for_nickname (pyStrip p.nickname) tagsMap)).getD i "")
    (htag : ex.getD 3 ""
        = (profileRow p (get_tags_for_nickname (pyStrip p.nickname) tagsMap)).getD 3 "") :
    reconcileProfile (existing_rows sheet) tagsMap p = .noop
    ∧ writesOf (reconcileProfile (existing_rows sheet) tagsMap p) = []
    ∧ reconcileProfile
        (existing_rows
          ((writesOf (reconcileProfile (existing_rows sheet) tagsMap p)).foldl
            applySheetWrite sheet)) tagsMap p = .noop
    ∧ writesOf
        (reconcileProfile
          (existing_rows
            ((writesOf (reconcileProfile (existing_rows sheet) tagsMap p)).foldl
              applySheetWrite sheet)) tagsMap p) = [] := by
  have hb := reconcile_present (existing_rows sheet) tagsMap p ri ex hnick hlk
  have hfalse := needs_update_eq_false ex
    (profileRow p (get_tags_for_nickname (pyStrip p.nickname) tagsMap)) hkey htag
  have h1 : reconcileProfile (existing_rows sheet) tagsMap p = .noop := by
    rw [hb, hfalse]; rfl
  refine ⟨h1, by rw [h1]; rfl, ?_, ?_⟩ <;> rw [h1] <;> simp [writesOf, h1]

/-- C9: a record whose identifier strips to the empty string is skipped:
no decision beyond skip, no write, one processed outcome with zero
attempts, and a zero statistics delta (in particular no error count). -/
theorem c9_empty_identifier_drop (attemptOk : Nat → Bool) (index : RowMap)
    (tagsMap : TagsMap) (p : Profile)
    (h : pyStrip p.nickname = "") :
    reconcileProfile index tagsMap p = .skipped
    ∧ writesOf (reconcileProfile index tagsMap p) = []
    ∧ processRecord attemptOk index tagsMap p = ⟨.skipped, 0, 0, true⟩
    ∧ countsDelta (processRecord attemptOk index tagsMap p) = ⟨0, 0, 0⟩ := by
  have h1 : reconcileProfile index tagsMap p = .skipped := by
    simp [reconcileProfile, h]
  have h2 : processRecord attemptOk index tagsMap p = ⟨.skipped, 0, 0, true⟩ := by
    simp [processRecord, h1]
  exact ⟨h1, by rw [h1]; rfl, h2, by rw [h2]; rfl⟩

/-- C9 witness: the whitespace-only identifier of c9Profile is dropped. -/
theorem c9_empty_identifier_drop_witness :
    reconcileProfile [] [] c9Profile = .skipped
    ∧ writesOf (reconcileProfile [] [] c9Profile) = []
    ∧ processRecord (fun _ => true) [] [] c9Profile = ⟨.skipped, 0, 0, true⟩
    ∧ countsDelta (processRecord (fun _ => true) [] [] c9Profile) = ⟨0, 0, 0⟩ :=
  c9_empty_identifier_drop (fun _ => true) [] [] c9Profile (by decide)

/-- C6: a phrase that does not match the integer-unit-ago pattern is
returned unchanged by the date-only entry point and becomes the literal
marker at the post-timestamp entry point. -/
theorem c6_normalizer_fallback (now : Nat) (text : String)
    (h : parseAgo text = none) :
    convert_relative_date now text = text ∧ parse_post_time now text = "N/A" := by
  constructor
  · simp [convert_relative_date, h]
  · simp [parse_post_time, h]

/-- C6 witness: the unparseable phrase yesterday takes both fallbacks. -/
theorem c6_normalizer_fallback_witness :
    convert_relative_date 0 "yesterday" = "yesterday"
    ∧ parse_post_time 0 "yesterday" = "N/A" :=
  c6_normalizer_fallback 0 "yesterday" (by decide)

/-- C10: in a target-status update, the LAST_SCRAPED column (3) is written
iff the status uppercases to COMPLETED, the NOTES column (4) is written
iff the notes string is non-empty, and a Pending failure update never
touches LAST_SCRAPED. -/
theorem c10_target_status_frame (row_index : Nat) (status notes now : String) :
    ((∃ v, (row_index, 3, v) ∈ update_target_status row_index status notes now)
        ↔ pyUpper status = "COMPLETED")
    ∧ ((∃ v, (row_index, 4, v) ∈ update_target_status row_index status notes now)
        ↔ notes ≠ "")
    ∧ (∀ v, (row_index, 3, v) ∉ update_target_status row_index "Pending" notes now) := by
  have hp : pyUpper "Pending" ≠ "COMPLETED" := by decide
  by_cases hc : pyUpper status = "COMPLETED" <;> by_cases hn : notes = "" <;>
    simp [update_target_status, hc, hn, hp, Prod.ext_iff]

/-- C10 witness: instantiation at a failing Pending update with a note. -/
theorem c10_target_status_frame_witness :
    ((∃ v, (7, 3, v) ∈ update_target_status 7 "Pending" "Scraping failed - will retry" "ts")
        ↔ pyUpper "Pending" = "COMPLETED")
    ∧ ((∃ v, (7, 4, v) ∈ update_target_status 7 "Pending" "Scraping failed - will retry" "ts")
        ↔ "Scraping failed - will retry" ≠ "")
    ∧ (∀ v, (7, 3, v) ∉ update_target_status 7 "Pending" "Scraping failed - will retry" "ts") :=
  c10_target_status_frame 7 "Pending" "Scraping failed - will retry" "ts"

/-- C1 amended witness: against c1Sheet, the all-empty-or-equal record
c1ProfileB is a NO-OP with no write, while c1Profile, whose non-empty
INTRO differs, is an UPDATE. -/
theorem c1_monotonic_fill_amended_witness :
    (reconcileProfile (existing_rows c1Sheet) [] c1ProfileB = .noop
      ∧ writesOf (reconcileProfile (existing_rows c1Sheet) [] c1ProfileB) = [])
    ∧ reconcileProfile (existing_rows c1Sheet) [] c1Profile
        = .update 2 (profileRow c1Profile
            (get_tags_for_nickname (pyStrip c1Profile.nickname) [])) :=
  ⟨(c1_monotonic_fill_amended (existing_rows c1Sheet) [] c1ProfileB 2 c1Ex
      (by decide) (by decide)).1 (by decide) (by decide),
   (c1_monotonic_fill_amended (existing_rows c1Sheet) [] c1Profile 2 c1Ex
      (by decide) (by decide)).2 13 (by decide) (by decide) (by decide)⟩

/-- C2 amended witness: the PIMAGE-only change of c2Profile is a NO-OP, so
no write is issued for it. -/
theorem c2_decision_rule_amended_witness :
    writesOf (reconcileProfile (existing_rows c2Sheet) [] c2Profile) = [] :=
  (c2_decision_rule_amended (existing_rows c2Sheet) [] c2Profile 2 c2Ex
    (by decide) (by decide)).2.2 (by decide)

/-- C3 witness: carol's unchanged record is a NO-OP on both passes. -/
theorem c3_idempotence_witness :
    reconcileProfile (existing_rows c3Sheet) [] c3Profile = .noop
    ∧ writesOf (reconcileProfile (existing_rows c3Sheet) [] c3Profile) = []
    ∧ reconcileProfile
        (existing_rows
          ((writesOf (reconcileProfile (existing_rows c3Sheet) [] c3Profile)).foldl
            applySheetWrite c3Sheet)) [] c3Profile = .noop
    ∧ writesOf
        (reconcileProfile
          (existing_rows
            ((writesOf (reconcileProfile (existing_rows c3Sheet) [] c3Profile)).foldl
              applySheetWrite c3Sheet)) [] c3Profile) = [] :=
  c3_idempotence c3Sheet [] c3Profile 2 c3Ex (by decide) (by decide)
    (by decide) (by decide)

/-- C5, counterexample: against a store that throttles the first attempt
and would let a retry succeed, the export makes exactly one attempt, no
backoff sleep, and no successful apply — there is no retry. -/
theorem c5_counterexample :
    (processRecord c5Oracle [] [] c5Profile).attempts = 1
    ∧ (processRecord c5Oracle [] [] c5Profile).attempts ≠ 2
    ∧ (processRecord c5Oracle [] [] c5Profile).backoffSleeps = 0
    ∧ (processRecord c5Oracle [] [] c5Profile).succeeded = false := by
  decide

/-- C5, amended: every record's write is attempted exactly once — never
retried and never preceded or followed by a backoff sleep — a failure is
not added to the run's error count, and the rest of the batch is still
processed (one outcome per record whatever the store answers). -/
theorem c5_retry_amended (oracles : Nat → Nat → Bool) (index : RowMap)
    (tagsMap : TagsMap) (ps : List Profile) (i0 : Nat) :
    (exportBatch oracles index tagsMap ps i0).length = ps.length
    ∧ ∀ o ∈ exportBatch oracles index tagsMap ps i0,
        o.attempts ≤ 1 ∧ o.backoffSleeps = 0 ∧ (countsDelta o).error_count = 0 := by
  induction ps generalizing i0 with
  | nil => exact ⟨rfl, fun o ho => absurd ho (List.not_mem_nil o)⟩
  | cons p rest ih =>
    constructor
    · simpa [exportBatch] using (ih (i0 + 1)).1
    · intro o ho
      rw [exportBatch] at ho
      rcases List.mem_cons.mp ho with rfl | ho
      · cases hr : reconcileProfile index tagsMap p <;>
          simp [processRecord, hr, countsDelta]
      · exact (ih (i0 + 1)).2 o ho

/-- C5 amended witness: a one-record batch against an always-failing store
still yields one outcome, with one attempt and no sleep. -/
theorem c5_retry_amended_witness :
    (exportBatch (fun _ _ => false) [] [] [c5Profile] 0).length = [c5Profile].length
    ∧ ∀ o ∈ exportBatch (fun _ _ => false) [] [] [c5Profile] 0,
        o.attempts ≤ 1 ∧ o.backoffSleeps = 0 ∧ (countsDelta o).error_count = 0 :=
  c5_retry_amended (fun _ _ => false) [] [] [c5Profile] 0

/-! ### Row index lemmas and C8 -/

/-- Lookup after a dict assignment: the assigned key maps to the new value,
every other key is untouched. -/
theorem lookupRow_insertRow (m : RowMap) (k : String) (v : Nat × List String)
    (n : String) :
    lookupRow (insertRow m k v) n = if n = k then some v else lookupRow m n := by
  induction m with
  | nil =>
    by_cases h : n = k
    · simp [insertRow, lookupRow, h]
    · have h' : ¬ k = n := fun he => h he.symm
      simp [insertRow, lookupRow, h, h']
  | cons e rest ih =>
    obtain ⟨k', v'⟩ := e
    by_cases h1 : k' = k
    · subst h1
      by_cases h2 : n = k'
      · simp [insertRow, lookupRow, h2]
      · have h2' : ¬ k' = n := fun he => h2 he.symm
        simp [insertRow, lookupRow, h2, h2']
    · by_cases h2 : n = k'
      · subst h2
        simp [insertRow, lookupRow, h1]
      · have h2' : ¬ k' = n := fun he => h2 he.symm
        simp [insertRow, lookupRow, h1, h2, h2', ih]

/-- A key of the index after an assignment is the assigned key or an old
key. -/
theorem rowKeys_insertRow (m : RowMap) (k : String) (v : Nat × List String) :
    ∀ x ∈ rowKeys (insertRow m k v), x = k ∨ x ∈ rowKeys m := by
  induction m with
  | nil => intro x hx; simp [insertRow, rowKeys] at hx; exact Or.inl hx
  | cons e rest ih =>
    obtain ⟨k', v'⟩ := e
    intro x hx
    by_cases h1 : k' = k
    · subst h1
      simp [insertRow, rowKeys] at hx ⊢
      tauto
    · simp [insertRow, rowKeys, h1] at hx ⊢
      rcases hx with rfl | hx
      · tauto
      · rcases ih x (by simpa [rowKeys] using hx) with h | h
        · tauto
        · simp [rowKeys] at h; tauto

/-- Dict assignment preserves distinctness of the keys. -/
theorem nodup_rowKeys_insertRow (m : RowMap) (k : String) (v : Nat × List String)
    (h : (rowKeys m).Nodup) : (rowKeys (insertRow m k v)).Nodup := by
  induction m with
  | nil => simp [insertRow, rowKeys]
  | cons e rest ih =>
    obtain ⟨k', v'⟩ := e
    have hkeys : rowKeys ((k', v') :: rest) = k' :: rowKeys rest := rfl
    rw [hkeys] at h
    obtain ⟨hnotin, hrest⟩ := List.nodup_cons.mp h
    by_cases h1 : k' = k
    · subst h1
      have : insertRow ((k', v') :: rest) k' v = (k', v) :: rest := by
        simp [insertRow]
      rw [this]
      exact List.nodup_cons.mpr ⟨hnotin, hrest⟩
    · have : insertRow ((k', v') :: rest) k v = (k', v') :: insertRow rest k v := by
        simp [insertRow, h1]
      rw [this]
      refine List.nodup_cons.mpr ⟨?_, ih hrest⟩
      intro hmem
      rcases rowKeys_insertRow rest k v k' hmem with rfl | hmem
      · exact h1 rfl
      · exact hnotin hmem

/-- The index built by the body loop answers lookups with the last
qualifying row, falling back to the accumulator. -/
theorem lookupRow_buildRowsAux (n : String) :
    ∀ (body : List (List String)) (i : Nat) (m : RowMap),
      lookupRow (buildRowsAux body i m) n
        = (lastQualAux body i n).elim (lookupRow m n) some := by
  intro body
  induction body with
  | nil => intro i m; rfl
  | cons row rest ih =>
    intro i m
    rw [buildRowsAux, ih (i + 1)]
    cases hq : lastQualAux rest (i + 1) n with
    | some r => simp [lastQualAux, hq]
    | none =>
      by_cases hqr : qualifies row = true
      · rw [if_pos hqr]
        by_cases hk : rowKey row = n
        · simp [lastQualAux, hq, hqr, hk, lookupRow_insertRow]
        · have hk' : ¬ n = rowKey row := fun he => hk he.symm
          simp [lastQualAux, hq, hqr, hk, hk', lookupRow_insertRow]
      · simp [lastQualAux, hq, hqr]

/-- The body loop preserves distinctness of the index keys. -/
theorem nodup_buildRowsAux :
    ∀ (body : List (List String)) (i : Nat) (m : RowMap),
      (rowKeys m).Nodup → (rowKeys (buildRowsAux body i m)).Nodup := by
  intro body
  induction body with
  | nil => intro i m h; exact h
  | cons row rest ih =>
    intro i m h
    rw [buildRowsAux]
    by_cases hqr : qualifies row = true
    · rw [if_pos hqr]
      exact ih (i + 1) _ (nodup_rowKeys_insertRow m (rowKey row) (i, row) h)
    · rw [if_neg hqr]
      exact ih (i + 1) m h

/-- C8: the row index holds at most one entry per identifier, and its entry
for any identifier is exactly the largest-position qualifying sheet row
carrying that identifier (later physical rows win). -/
theorem c8_row_index_last_seen_wins (existing_data : List (List String)) (n : String) :
    (rowKeys (existing_rows existing_data)).Nodup
    ∧ lookupRow (existing_rows existing_data) n = lastQualRow existing_data n := by
  cases existing_data with
  | nil => exact ⟨List.nodup_nil, rfl⟩
  | cons first body =>
    by_cases hf : first.isEmpty
    · simp [existing_rows, lastQualRow, hf, rowKeys, lookupRow]
    · constructor
      · simp only [existing_rows, if_neg hf]
        exact nodup_buildRowsAux body 2 [] (by simp [rowKeys])
      · simp only [existing_rows, lastQualRow, if_neg hf]
        rw [lookupRow_buildRowsAux]
        cases lastQualAux body 2 n <;> rfl

/-! ### Rate limiter lemmas and C4 -/

/-- A call that does not pause returns the pruned-and-appended window, whose
size is still below the quota. -/
theorem record_and_check_not_paused {quota : Nat} {w : List Nat} {t : Nat}
    (h : (record_and_check quota w t).2 = false) :
    (record_and_check quota w t).1 = rcAppend w t
    ∧ ¬ quota ≤ (rcAppend w t).length := by
  by_cases hc : quota ≤ (rcAppend w t).length
  · rw [record_and_check, if_pos hc] at h
    cases h
  · rw [record_and_check, if_neg hc]
    exact ⟨rfl, hc⟩

/-- Every operation of a window-respecting block survives the pruning of
the k-th call: its timestamp is within 60 seconds of the pruning time. -/
theorem c4_recent (quota : Nat) (ts : Nat → Nat) (i k : Nat)
    (hmono : ∀ a b, a ≤ b → ts a ≤ ts b) (hk : k ≤ quota)
    (hwin : ts (i + quota) - ts i < 60) :
    ∀ a ∈ (List.range k).map (fun j => ts (i + j)),
      (fun s => decide (ts (i + k) - s < 60)) a = true := by
  intro a ha
  simp only [List.mem_map, List.mem_range] at ha
  obtain ⟨j, hj, rfl⟩ := ha
  have h1 : ts i ≤ ts (i + j) := hmono _ _ (by omega)
  have h2 : ts (i + k) ≤ ts (i + quota) := hmono _ _ (by omega)
  simp only [decide_eq_true_eq]
  omega

/-- While no pause fires, the window before the k-th call of a
window-respecting block ends with the timestamps of the block's first k
operations. -/
theorem c4_invariant (quota : Nat) (ts : Nat → Nat) (i : Nat)
    (hmono : ∀ a b, a ≤ b → ts a ≤ ts b)
    (hwin : ts (i + quota) - ts i < 60)
    (hnp : ∀ k, k < quota → rcPaused quota ts (i + k) = false) :
    ∀ k, k ≤ quota →
      ∃ pre, rcWindow quota ts (i + k)
        = pre ++ (List.range k).map (fun j => ts (i + j)) := by
  intro k
  induction k with
  | zero => intro _; exact ⟨rcWindow quota ts (i + 0), by simp⟩
  | succ k ihk =>
    intro hk1
    obtain ⟨pre, hw⟩ := ihk (by omega)
    have hnpk : (record_and_check quota (rcWindow quota ts (i + k)) (ts (i + k))).2 = false :=
      hnp k (by omega)
    obtain ⟨hwin1, _⟩ := record_and_check_not_paused hnpk
    have hstep : rcWindow quota ts (i + (k + 1))
        = rcAppend (rcWindow quota ts (i + k)) (ts (i + k)) := by
      have : i + (k + 1) = (i + k) + 1 := by omega
      rw [this, rcWindow, hwin1]
    refine ⟨pre.filter (fun s => decide (ts (i + k) - s < 60)), ?_⟩
    rw [hstep, hw, rcAppend, List.filter_append,
      List.filter_eq_self.mpr (c4_recent quota ts i k hmono (by omega) hwin),
      List.range_succ, List.map_append, List.append_assoc]
    rfl

/-- C4: when more than quota operations fall inside one 60-second window —
operations i through i plus quota issued at nondecreasing times with the
last one less than 60 seconds after the first — a pause fires at one of
the first quota calls, hence before the operation numbered quota plus
one in that window is issued (each call precedes its write). -/
theorem c4_rate_compliance (quota : Nat) (ts : Nat → Nat) (i : Nat)
    (hmono : ∀ a b, a ≤ b → ts a ≤ ts b)
    (hq : 1 ≤ quota)
    (hwin : ts (i + quota) - ts i < 60) :
    ∃ k, k < quota ∧ rcPaused quota ts (i + k) = true := by
  by_contra hcon
  push_neg at hcon
  have hnp : ∀ k, k < quota → rcPaused quota ts (i + k) = false := by
    intro k hk
    cases hb : rcPaused quota ts (i + k) with
    | false => rfl
    | true => exact absurd hb (hcon k hk)
  obtain ⟨pre, hw⟩ :=
    c4_invariant quota ts i hmono hwin hnp (quota - 1) (by omega)
  have hnpq : (record_and_check quota (rcWindow quota ts (i + (quota - 1)))
      (ts (i + (quota - 1)))).2 = false := hnp (quota - 1) (by omega)
  obtain ⟨_, hlen⟩ := record_and_check_not_paused hnpq
  apply hlen
  rw [hw, rcAppend, List.filter_append,
    List.filter_eq_self.mpr (c4_recent quota ts i (quota - 1) hmono (by omega) hwin)]
  simp only [List.length_append, List.length_map, List.length_range,
    List.length_singleton]
  omega

/-- C4 witness: with quota 2 and three writes at the same instant, a pause
fires at one of the first two calls. -/
theorem c4_rate_compliance_witness :
    ∃ k, k < 2 ∧ rcPaused 2 (fun _ => 0) (0 + k) = true :=
  c4_rate_compliance 2 (fun _ => 0) 0 (fun _ _ _ => Nat.le_refl 0)
    (by decide) (by decide)

/-! ### Tag index lemmas and C7 -/

/-- The tag string is the comma-space join of the looked-up icon list. -/
theorem get_tags_join (n : String) (m : TagsMap) :
    get_tags_for_nickname n m = joinComma (lookupTagsD m n) := by
  rw [get_tags_for_nickname, lookupTagsD]
  cases lookupTags m n <;> rfl

/-- Appending an icon for one nickname extends exactly that nickname's
list. -/
theorem lookupTagsD_addTag (m : TagsMap) (k icon n : String) :
    lookupTagsD (addTag m k icon)  n
      = if n = k then lookupTagsD m n ++ [icon] else lookupTagsD m n := by
  induction m with
  | nil =>
    by_cases h : n = k
    · simp [addTag, lookupTags, lookupTagsD, h]
    · have h' : ¬ k = n := fun he => h he.symm
      simp [addTag, lookupTags, lookupTagsD, h, h']
  | cons e rest ih =>
    obtain ⟨k', v'⟩ := e
    by_cases h1 : k' = k
    · subst h1
      by_cases h2 : n = k'
      · simp [addTag, lookupTags, lookupTagsD, h2]
      · have h2' : ¬ k' = n := fun he => h2 he.symm
        simp [addTag, lookupTags, lookupTagsD, h2, h2']
    · by_cases h2 : n = k'
      · subst h2
        simp [addTag, lookupTags, lookupTagsD, h1]
      · have h2' : ¬ k' = n := fun he => h2 he.symm
        simp only [lookupTagsD] at ih
        simp [addTag, lookupTags, lookupTagsD, h1, h2, h2', ih]

/-- One column pass appends one icon per occurrence of the nickname in the
column (for a non-empty nickname). -/
theorem lookupTagsD_addColumn (ci : Nat) (icon n : String) (hn : n ≠ "") :
    ∀ (body : List (List String)) (m : TagsMap),
      lookupTagsD (addColumn ci icon body m) n
        = lookupTagsD m n ++ List.replicate (countColN body ci n) icon := by
  intro body
  induction body with
  | nil => intro m; simp [addColumn, countColN]
  | cons row rest ih =>
    intro m
    rw [addColumn]
    by_cases hc : colCell row ci = ""
    · have hcn : ¬ (colCell row ci = n) := by
        rw [hc]; exact fun he => hn he.symm
      rw [if_pos hc, ih m]
      simp [countColN, List.countP_cons, hcn]
    · rw [if_neg hc, ih]
      rw [lookupTagsD_addTag]
      by_cases he : colCell row ci = n
      · rw [if_pos he.symm]
        simp [countColN, List.countP_cons, he, List.replicate_succ,
          List.append_assoc]
      · have he' : ¬ n = colCell row ci := fun h => he h.symm
        rw [if_neg he']
        simp [countColN, List.countP_cons, he]

/-- A column mentions the nickname iff its occurrence count is positive. -/
theorem colHasNick_iff (body : List (List String)) (ci : Nat) (n : String) :
    colHasNick body ci n = true ↔ 0 < countColN body ci n := by
  rw [colHasNick, countColN, List.countP_pos_iff, List.any_eq_true]

/-- The outer column loop appends, for each processed column, its icon when
the column mentions the nickname — one icon per column under the
at-most-one-occurrence hypothesis. -/
theorem lookupTagsD_buildTags (body : List (List String)) (n : String) (hn : n ≠ "") :
    ∀ (hs : List String) (ci : Nat) (m : TagsMap),
      (∀ j, ci ≤ j → j < ci + hs.length → countColN body j n ≤ 1) →
      lookupTagsD (buildTags body hs ci m) n
        = lookupTagsD m n ++ specTagList body n hs ci := by
  intro hs
  induction hs with
  | nil => intro ci m _; simp [buildTags, specTagList]
  | cons h hs ih =>
    intro ci m hmult
    rw [buildTags, specTagList]
    by_cases hh : pyStrip h = ""
    · rw [if_pos hh, ih (ci + 1) m (fun j h1 h2 => hmult j (by omega)
        (by simp only [List.length_cons]; omega))]
      simp [hh]
    · rw [if_neg hh, ih (ci + 1) _ (fun j h1 h2 => hmult j (by omega)
        (by simp only [List.length_cons]; omega))]
      rw [lookupTagsD_addColumn ci (tagIcon (pyStrip h)) n hn body m]
      have hcnt : countColN body ci n ≤ 1 :=
        hmult ci (Nat.le_refl ci) (by simp only [List.length_cons]; omega)
      rw [List.append_assoc]
      congr 1
      match hc : countColN body ci n, hcnt with
      | 0, _ =>
        have : colHasNick body ci n = false := by
          cases hb : colHasNick body ci n with
          | false => rfl
          | true =>
            have := (colHasNick_iff body ci n).mp hb
            omega
        simp [this]
      | 1, _ =>
        have : colHasNick body ci n = true :=
          (colHasNick_iff body ci n).mpr (by omega)
        simp [this, hh]

/-- C7: for a non-empty identifier occurring at most once per column, the
exported tag string is exactly the per-column labels, in column order,
joined by comma-space with no cross-column deduplication; in particular
an identifier listed under Following and under a custom VIP column gets
the claimed two-label string. -/
theorem c7_tag_aggregation (tags_data : List (List String)) (n : String)
    (hn : n ≠ "")
    (hmult : ∀ j, j < (tags_data.headD []).length →
        countColN (tags_data.drop 1) j n ≤ 1) :
    get_tags_for_nickname n (get_tags_mapping tags_data) = specTagString tags_data n
    ∧ get_tags_for_nickname "user1"
        (get_tags_mapping [["Following", "VIP"], ["user1", "user1"]])
      = "🔗 Following, 📌 VIP" := by
  constructor
  · cases tags_data with
    | nil => rfl
    | cons headers body =>
      rw [get_tags_mapping, get_tags_join, specTagString]
      rw [lookupTagsD_buildTags body n hn headers 0 []
        (fun j h1 h2 => hmult j (by simpa using h2))]
      rfl
  · decide

/-- C7 witness: the Following-and-VIP table itself satisfies the
hypotheses, and its spec-side tag string agrees. -/
theorem c7_tag_aggregation_witness :
    get_tags_for_nickname "user1"
        (get_tags_mapping [["Following", "VIP"], ["user1", "user1"]])
      = specTagString [["Following", "VIP"], ["user1", "user1"]] "user1"
    ∧ get_tags_for_nickname "user1"
        (get_tags_mapping [["Following", "VIP"], ["user1", "user1"]])
      = "🔗 Following, 📌 VIP" :=
  c7_tag_aggregation [["Following", "VIP"], ["user1", "user1"]] "user1"
    (by decide) (by decide)

end Profiles
